import Mathlib

/-!
Verification development for the gondi-fees-dashboard ingestion pipeline
(`src/lib/blockchain.ts`).

The TypeScript source is shallowly embedded below:
* JavaScript string/number primitives (`parseInt`, `BigInt`, `toLowerCase`,
  truthiness of strings) are modelled as executable Lean functions over
  `String`/`List Char`, faithful to the semantics on the inputs this
  pipeline receives;
* the process-wide fetch cache becomes an explicit association list passed
  and returned by the functions that read or write it, with the current
  wall-clock instant an explicit `now : Nat` parameter (milliseconds);
* `fetchWithRetry`'s network attempts become a function
  `Nat → AttemptOutcome` giving the outcome of each attempt, and the
  retry loop is an explicit recursion that records the attempts made and
  the backoff delays requested;
* the orchestrator `fetchEthereumTransactions` takes the settled outcomes
  of its three `fetchWithRetry` invocations (token fetch, internal fetch,
  direct token retry) as a `SettledEnv`; thrown exceptions are modelled
  with `Except String`, and the outer `try/catch` that converts any thrown
  error into an empty result is the final `match` in
  `fetchEthereumTransactions`.
-/

/-! ## JavaScript primitive models -/

/-- Value of a (non-empty, all-digit) list of decimal digit characters. -/
def digitsToNat (l : List Char) : Nat :=
  l.foldl (fun acc c => acc * 10 + (c.toNat - 48)) 0

/-- Models `s.toLowerCase()` on the ASCII hex/address strings this pipeline
compares: every character is lowered individually. -/
def toLowerStr (s : String) : String :=
  String.mk (s.data.map Char.toLower)

/-- Leading- and trailing-whitespace trimming of a character list, as the
`BigInt` constructor performs on its string argument. -/
def trimChars (l : List Char) : List Char :=
  ((l.dropWhile Char.isWhitespace).reverse.dropWhile Char.isWhitespace).reverse

/-- Models JavaScript `parseInt(s)` (radix 10) on the strings this pipeline
meets: leading whitespace is skipped, an optional sign is read, then the
longest leading run of decimal digits; no digits at all is `NaN`, modelled
as `none`.  (The `0x` hexadecimal prefix form never occurs in ledger
responses and is not modelled.) -/
def parseIntJS (s : String) : Option Int :=
  let t := s.data.dropWhile Char.isWhitespace
  let signed : Int × List Char :=
    match t with
    | '-' :: r => (-1, r)
    | '+' :: r => (1, r)
    | r => (1, r)
  let digits := signed.2.takeWhile Char.isDigit
  if digits.isEmpty then none else some (signed.1 * digitsToNat digits)

/-- Models the JavaScript `BigInt(string)` conversion: the argument is
trimmed of whitespace; an empty remainder converts to `0`; otherwise an
optional sign followed by decimal digits converts to the corresponding
integer, and anything else throws a `SyntaxError`, modelled as `none`.
(The `0x`/`0o`/`0b` literal forms never occur in ledger responses and are
not modelled.) -/
def jsBigInt? (s : String) : Option Int :=
  match trimChars s.data with
  | [] => some 0
  | '-' :: r =>
    if !r.isEmpty && r.all Char.isDigit then some (-(digitsToNat r : Int)) else none
  | '+' :: r =>
    if !r.isEmpty && r.all Char.isDigit then some ((digitsToNat r : Int)) else none
  | r =>
    if r.all Char.isDigit then some ((digitsToNat r : Int)) else none

/-- Models the JavaScript `a || d` idiom on an optional string `a`: the
default `d` is used when `a` is absent (`undefined`) or falsy (`""`). -/
def jsOr (a : Option String) (d : String) : String :=
  match a with
  | some s => if s = "" then d else s
  | none => d

/-- Models the JavaScript comparison `x < b` where `x` is the result of a
`parseInt` (possibly `NaN`, i.e. `none`): every comparison with `NaN` is
false. -/
def jsLtNum (x : Option Int) (b : Int) : Bool :=
  match x with
  | some a => decide (a < b)
  | none => false

/-! ## Fixed configuration (`src/lib/blockchain.ts`, lines 20-29) -/

/-- Tracked contract address (line 21). -/
def GONDI_CONTRACT : String := "0x4169447a424ec645f8a24dccfd8328f714dd5562"

/-- USDC asset contract on the allow-list (line 22). -/
def USDC_CONTRACT : String := "0xA0b86991c6218b36c1d19D4a2e9Eb0cE3606eB48"

/-- WETH asset contract on the allow-list (line 23). -/
def WETH_CONTRACT : String := "0xc02aaa39b223fe8d0a0e5c4f27ead9083c756cc2"

/-- `Math.floor(new Date('2025-10-22T00:00:00Z').getTime() / 1000)`
(lines 26-27): the cutoff instant 2025-10-22T00:00:00Z as unix seconds. -/
def START_TIMESTAMP : Int := 1761091200

/-- Cache time-to-live: 30 minutes in milliseconds (line 5). -/
def CACHE_DURATION : Nat := 30 * 60 * 1000

/-! ## Data model -/

/-- An upstream ledger record as Etherscan delivers it (the `any`-typed
elements of `data.result`).  Fields the code reads through optional
chaining or truthiness guards are `Option String`, with `none` standing
for `undefined`. -/
structure RawRecord where
  hash : Option String
  timeStamp : String
  value : Option String
  «from» : Option String
  «to» : Option String
  contractAddress : Option String
  tokenSymbol : Option String
  tokenDecimal : Option String
  blockNumber : Option String
deriving DecidableEq

/-- The normalized transaction shape built by the object literals at lines
170-180 and 238-248.  `timestamp`, `tokenDecimal` and `blockNumber` hold
`none` where the JavaScript value would be `NaN`. -/
structure Transaction where
  hash : Option String
  timestamp : Option Int
  value : Option String
  tokenSymbol : Option String
  tokenDecimal : Option Int
  «from» : Option String
  «to» : Option String
  network : String
  blockNumber : Option Int
deriving DecidableEq

/-! ## Value parser (lines 31-42)

The TypeScript function returns an IEEE double; the model computes in `ℚ`,
i.e. it abstracts the final floating-point roundings of
`Number(quotient) + Number(remainder) / Number(divisor)` but keeps the
exact quotient/remainder split performed over `BigInt`.  The divisor
`BigInt(10 ** decimals)` is modelled as the exact power `10 ^ decimals`,
which agrees with the code whenever `10 ** decimals` is an exact double,
i.e. for every `decimals ≤ 22` (the dashboard only ever passes 6 and 18).
`BigInt` division/remainder truncate toward zero, hence `Int.tdiv` and
`Int.tmod`. -/

def parseTransactionValue (value : String) (decimals : Nat) : ℚ :=
  match jsBigInt? value with
  | none => 0
  | some v =>
    let divisor : Int := 10 ^ decimals
    let quotient := v.tdiv divisor
    let remainder := v.tmod divisor
    (quotient : ℚ) + (remainder : ℚ) / (divisor : ℚ)

/-! ## Fetch cache (lines 3-18) -/

/-- One cache entry: the cached payload and the instant it was stored. -/
structure CacheEntry where
  data : List RawRecord
  timestamp : Nat
deriving DecidableEq

/-- The process-wide `API_CACHE` map, modelled as an association list keyed
by the full request URL. -/
abbrev Cache := List (String × CacheEntry)

/-- `getCachedData` (lines 7-14): a stored entry younger than
`CACHE_DURATION` is returned, anything else is a miss. -/
def getCachedData (cache : Cache) (now : Nat) (url : String) : Option (List RawRecord) :=
  match cache.lookup url with
  | some e => if now - e.timestamp < CACHE_DURATION then some e.data else none
  | none => none

/-- `setCachedData` (lines 16-18): `Map.set` replaces any entry under the
same key. -/
def setCachedData (url : String) (data : List RawRecord) (now : Nat) (cache : Cache) : Cache :=
  (url, ⟨data, now⟩) :: cache.filter (fun p => !(p.1 == url))

/-! ## Resilient fetcher (lines 44-99) -/

/-- The upstream JSON envelope.  `result = some l` models an array payload;
`none` models a missing or non-array `result` field, which
`Array.isArray(data.result) ? data.result : []` turns into `[]`. -/
structure ApiEnvelope where
  status : String
  message : String
  result : Option (List RawRecord)
deriving DecidableEq

/-- Outcome of one HTTP attempt inside `fetchWithRetry`:
either the fetch itself rejects, or the response is non-2xx, or a JSON
envelope is obtained. -/
inductive AttemptOutcome where
  | networkError (msg : String)
  | httpError (status : Nat) (statusText : String)
  | success (resp : ApiEnvelope)
deriving DecidableEq

/-- What one loop iteration of `fetchWithRetry` (lines 52-96) does with an
attempt outcome: either the function returns a payload (recording whether
line 79 caches it) or the attempt counts as a failure with the thrown
error's message. -/
inductive AttemptStep where
  | done (payload : List RawRecord) (cacheIt : Bool)
  | failed (msg : String)
deriving DecidableEq

/-- Lines 55-81: a non-ok response throws `HTTP status: statusText`;
a `status: "0"` envelope either returns `[]` without caching (message
`"No transactions found"`, lines 67-71) or throws the Etherscan error
(line 72); any other envelope returns its result list and caches it
(lines 75-81). -/
def stepOfOutcome : AttemptOutcome → AttemptStep
  | .networkError m => .failed m
  | .httpError st stText => .failed ("HTTP " ++ toString st ++ ": " ++ stText)
  | .success resp =>
    if resp.status = "0" then
      if resp.message = "No transactions found" then .done [] false
      else .failed ("Etherscan API error: " ++ resp.message)
    else .done (resp.result.getD []) true

/-- The backoff wait after failed attempt index `i` (line 93):
`Math.min(5000, 1000 * Math.pow(2, i))`. -/
def backoffDelay (i : Nat) : Nat := min 5000 (1000 * 2 ^ i)

/-- Observable outcome of a `fetchWithRetry` call: the returned list or
thrown error, the cache afterwards, the number of HTTP attempts issued,
and the backoff delays slept between attempts. -/
structure FetchState where
  result : Except String (List RawRecord)
  cache : Cache
  attemptsMade : Nat
  delays : List Nat

/-- The `for (let i = 0; i < retries; i++)` loop of lines 51-97: `i` is the
current attempt index and `fuel` the number of iterations left
(`retries - i`).  A failure on the last iteration rethrows (lines 87-90);
otherwise the loop sleeps `backoffDelay i` and retries (lines 93-95).
Falling off the loop returns `[]` (line 98, reachable only when
`retries = 0`). -/
def fetchAttempts (env : Nat → AttemptOutcome) (url : String) (now : Nat) :
    Nat → Nat → Cache → FetchState
  | _, 0, cache => ⟨.ok [], cache, 0, []⟩
  | i, fuel + 1, cache =>
    match stepOfOutcome (env i) with
    | .done payload cacheIt =>
      ⟨.ok payload, if cacheIt then setCachedData url payload now cache else cache, 1, []⟩
    | .failed msg =>
      if fuel = 0 then ⟨.error msg, cache, 1, []⟩
      else
        let s := fetchAttempts env url now (i + 1) fuel cache
        ⟨s.result, s.cache, s.attemptsMade + 1, backoffDelay i :: s.delays⟩

/-- `fetchWithRetry` (lines 44-99): a fresh cache entry is returned with no
network attempt (lines 46-49); otherwise the attempt loop runs.  The
source's `retries` parameter defaults to 3 at every call site. -/
def fetchWithRetry (env : Nat → AttemptOutcome) (url : String) (now : Nat)
    (cache : Cache) (retries : Nat) : FetchState :=
  match getCachedData cache now url with
  | some d => ⟨.ok d, cache, 0, []⟩
  | none => fetchAttempts env url now 0 retries cache

/-! ## Transaction normalizer (lines 152-180 and 225-248) -/

/-- The token-transfer category filter (lines 154-169), in `Except` because
`BigInt(tx.value)` can throw out of the filter callback: date cutoff,
recipient match, positive value, then the USDC/WETH allow-list. -/
def tokenTxFilter (tx : RawRecord) : Except String Bool :=
  if jsLtNum (parseIntJS tx.timeStamp) START_TIMESTAMP then .ok false
  else if tx.«to».map toLowerStr ≠ some (toLowerStr GONDI_CONTRACT) then .ok false
  else
    match tx.value with
    | none => .ok false
    | some v =>
      if v = "" then .ok false
      else
        match jsBigInt? v with
        | none => .error ("Cannot convert " ++ v ++ " to a BigInt")
        | some n =>
          if n ≤ 0 then .ok false
          else
            .ok (decide (tx.contractAddress.map toLowerStr = some (toLowerStr USDC_CONTRACT)) ||
                 decide (tx.contractAddress.map toLowerStr = some (toLowerStr WETH_CONTRACT)))

/-- The internal-transfer category filter (lines 227-237): the three shared
checks only. -/
def internalTxFilter (tx : RawRecord) : Except String Bool :=
  if jsLtNum (parseIntJS tx.timeStamp) START_TIMESTAMP then .ok false
  else if tx.«to».map toLowerStr ≠ some (toLowerStr GONDI_CONTRACT) then .ok false
  else
    match tx.value with
    | none => .ok false
    | some v =>
      if v = "" then .ok false
      else
        match jsBigInt? v with
        | none => .error ("Cannot convert " ++ v ++ " to a BigInt")
        | some n => .ok (decide (0 < n))

/-- The token-category map (lines 170-180). -/
def processTokenRecord (tx : RawRecord) : Transaction where
  hash := tx.hash
  timestamp := (parseIntJS tx.timeStamp).map (· * 1000)
  value := tx.value
  tokenSymbol := if tx.tokenSymbol = some "WETHEREUM" then some "WETH" else tx.tokenSymbol
  tokenDecimal := parseIntJS (jsOr tx.tokenDecimal "18")
  «from» := tx.«from»
  «to» := tx.«to»
  network := "ethereum"
  blockNumber := tx.blockNumber.bind parseIntJS

/-- The internal-category map (lines 238-248). -/
def processInternalRecord (tx : RawRecord) : Transaction where
  hash := tx.hash
  timestamp := (parseIntJS tx.timeStamp).map (· * 1000)
  value := tx.value
  tokenSymbol := some "ETH"
  tokenDecimal := some 18
  «from» := tx.«from»
  «to» := tx.«to»
  network := "ethereum"
  blockNumber := parseIntJS (jsOr tx.blockNumber "0")

/-- `Array.prototype.filter` with a predicate that may throw: elements are
tested left to right and the first thrown error aborts the whole filter. -/
def filterE {α : Type} (p : α → Except String Bool) : List α → Except String (List α)
  | [] => .ok []
  | a :: t =>
    match p a with
    | .error e => .error e
    | .ok b =>
      match filterE p t with
      | .error e => .error e
      | .ok rest => .ok (if b then a :: rest else rest)

/-! ## Deduplication (lines 258-261) -/

/-- The duplicate criterion of line 260: `t.hash === tx.hash && t.value ===
tx.value`. -/
def sameEvent (t tx : Transaction) : Bool :=
  decide (t.hash = tx.hash) && decide (t.value = tx.value)

/-- The indexed filter underlying
`transactions.filter((tx, index, array) => array.findIndex(...) === index)`:
`l` is the whole array, `i` the index of the head of the remaining list. -/
def dedupAux (l : List Transaction) : Nat → List Transaction → List Transaction
  | _, [] => []
  | i, a :: rest =>
    if l.findIdx (fun t => sameEvent t a) = i then a :: dedupAux l (i + 1) rest
    else dedupAux l (i + 1) rest

/-- Lines 259-261: keep a transaction exactly when it is the first
occurrence (by `hash` and `value`) in the array. -/
def dedupTransactions (l : List Transaction) : List Transaction :=
  dedupAux l 0 l

/-! ## Ingestion orchestrator (lines 101-290) -/

/-- `startblock=0&endblock=99999999&sort=asc&apikey=...` (line 114). -/
def baseParams (apiKey : String) : String :=
  "startblock=0&endblock=99999999&sort=asc&apikey=" ++ apiKey

/-- The token-transfer query URL (line 117). -/
def tokenUrl (apiKey : String) : String :=
  "https://api.etherscan.io/v2/api?chainid=1&module=account&action=tokentx&address=" ++
    GONDI_CONTRACT ++ "&" ++ baseParams apiKey

/-- The internal-transfer query URL (line 120). -/
def internalUrl (apiKey : String) : String :=
  "https://api.etherscan.io/v2/api?chainid=1&module=account&action=txlistinternal&address=" ++
    GONDI_CONTRACT ++ "&" ++ baseParams apiKey

/-- The settled outcomes of the orchestrator's `fetchWithRetry`
invocations: the `Promise.allSettled` results for the token URL (line 135)
and the internal URL (line 142), and the outcome of the direct token retry
(line 194), which is consulted only when the first token fetch rejected. -/
structure SettledEnv where
  tokenResult : Except String (List RawRecord)
  internalResult : Except String (List RawRecord)
  tokenRetryResult : Except String (List RawRecord)

/-- Token-category processing (lines 152-222): on a fulfilled fetch the
filter runs with its possible `BigInt` throw escaping to the outer catch;
on a rejected fetch the direct retry runs inside its own `try/catch`
(lines 193-221), which swallows both retry-fetch failures and filter
throws. -/
def tokenRetry (env : SettledEnv) : List Transaction :=
  match env.tokenRetryResult with
  | .ok raw =>
    match filterE tokenTxFilter raw with
    | .ok kept => kept.map processTokenRecord
    | .error _ => []
  | .error _ => []

/-- Token-category processing, continued: on a fulfilled fetch the filter
runs with its possible `BigInt` throw escaping to the outer catch; on a
rejected fetch the direct retry result is used. -/
def tokenPart (env : SettledEnv) : Except String (List Transaction) :=
  match env.tokenResult with
  | .ok raw => (filterE tokenTxFilter raw).map (List.map processTokenRecord)
  | .error _ => .ok (tokenRetry env)

/-- Internal-category processing (lines 225-254): a rejected fetch only
logs (line 253) and contributes nothing. -/
def internalPart (env : SettledEnv) : Except String (List Transaction) :=
  match env.internalResult with
  | .ok raw => (filterE internalTxFilter raw).map (List.map processInternalRecord)
  | .error _ => .ok []

/-- The body of the `try` block (lines 102-284): process both categories in
order, concatenate, deduplicate. -/
def fetchPipeline (env : SettledEnv) : Except String (List Transaction) :=
  match tokenPart env with
  | .error e => .error e
  | .ok tokenTxs =>
    match internalPart env with
    | .error e => .error e
    | .ok internalTxs => .ok (dedupTransactions (tokenTxs ++ internalTxs))

/-- The upstream request URLs the orchestrator issues: both category URLs
(lines 135 and 142), plus the direct token retry (line 194) when the first
token fetch rejected. -/
def fetchedRequests (apiKey : String) (env : SettledEnv) : List String :=
  match env.tokenResult with
  | .ok _ => [tokenUrl apiKey, internalUrl apiKey]
  | .error _ => [tokenUrl apiKey, internalUrl apiKey, tokenUrl apiKey]

/-- `fetchEthereumTransactions` before its outer `catch`: a missing
credential throws `ETHERSCAN_API_KEY is required but not set` (lines
109-111) before any upstream request is built or issued; otherwise the
pipeline runs.  The second component lists the upstream requests issued. -/
def fetchEthereumTransactionsBody (apiKey : Option String) (env : SettledEnv) :
    Except String (List Transaction) × List String :=
  match apiKey with
  | none => (.error "ETHERSCAN_API_KEY is required but not set", [])
  | some key => (fetchPipeline env, fetchedRequests key env)

/-- `fetchEthereumTransactions` (lines 101-290): the outer `catch` (lines
286-289) converts any thrown error into the empty list, so the function
always returns normally. -/
def fetchEthereumTransactions (apiKey : Option String) (env : SettledEnv) : List Transaction :=
  match (fetchEthereumTransactionsBody apiKey env).1 with
  | .ok txs => txs
  | .error _ => []

/-- The upstream requests issued by a `fetchEthereumTransactions` call. -/
def issuedRequests (apiKey : Option String) (env : SettledEnv) : List String :=
  (fetchEthereumTransactionsBody apiKey env).2

/-- The three shared filter invariants of the specification, read off a
normalized `Transaction`: timestamp (milliseconds) at or after the cutoff
instant, recipient equal to the tracked contract up to ASCII case, and a
strictly positive integer value. -/
def TxInvariant (t : Transaction) : Prop :=
  (∃ ts : Int, t.timestamp = some ts ∧ START_TIMESTAMP * 1000 ≤ ts) ∧
  (∃ a : String, t.«to» = some a ∧ toLowerStr a = toLowerStr GONDI_CONTRACT) ∧
  (∃ v : String, ∃ n : Int, t.value = some v ∧ jsBigInt? v = some n ∧ 0 < n)

/-! ## Lemmas about the duplicate criterion -/

theorem sameEvent_refl (a : Transaction) : sameEvent a a = true := by
  simp [sameEvent]

theorem sameEvent_symm (a b : Transaction) : sameEvent a b = sameEvent b a := by
  unfold sameEvent
  by_cases h1 : a.hash = b.hash
  · by_cases h2 : a.value = b.value
    · rw [h1, h2]
    · have h2' : ¬b.value = a.value := fun h => h2 h.symm
      simp [h2, h2']
  · have h1' : ¬b.hash = a.hash := fun h => h1 h.symm
    simp [h1, h1']

theorem sameEvent_congr {b a : Transaction} (h : sameEvent b a = true) (x : Transaction) :
    sameEvent b x = sameEvent a x := by
  unfold sameEvent at h ⊢
  rw [Bool.and_eq_true, decide_eq_true_iff, decide_eq_true_iff] at h
  rw [h.1, h.2]

/-! ## Lemmas about deduplication -/

set_option maxRecDepth 4000 in
theorem dedupAux_shift (a : Transaction) (t : List Transaction) (r : List Transaction) :
    ∀ i : Nat,
      dedupAux (a :: t) (i + 1) r = (dedupAux t i r).filter (fun b => !sameEvent b a) := by
  induction r with
  | nil => intro i; simp [dedupAux]
  | cons b r' ih =>
    intro i
    cases hab : sameEvent a b with
    | true =>
      have hba : sameEvent b a = true := (sameEvent_symm b a).trans hab
      by_cases h2 : t.findIdx (fun x => sameEvent x b) = i <;>
        simp [dedupAux, List.findIdx_cons, hab, hba, h2, ih (i + 1)]
    | false =>
      have hba : sameEvent b a = false := (sameEvent_symm b a).trans hab
      by_cases h2 : t.findIdx (fun x => sameEvent x b) = i
      · simp [dedupAux, List.findIdx_cons, hab, hba, h2, ih (i + 1)]
      · have h2' : ¬(t.findIdx (fun x => sameEvent x b) + 1 = i + 1) := by omega
        simp [dedupAux, List.findIdx_cons, hab, hba, h2, h2', ih (i + 1)]

theorem dedup_cons (a : Transaction) (t : List Transaction) :
    dedupTransactions (a :: t) =
      a :: (dedupTransactions t).filter (fun b => !sameEvent b a) := by
  unfold dedupTransactions
  have h0 : (a :: t).findIdx (fun x => sameEvent x a) = 0 := by
    simp [List.findIdx_cons, sameEvent_refl]
  simpa [dedupAux, h0] using dedupAux_shift a t t 0

theorem dedup_sublist (l : List Transaction) : (dedupTransactions l).Sublist l := by
  induction l with
  | nil => simp [dedupTransactions, dedupAux]
  | cons a t ih =>
    rw [dedup_cons]
    exact List.Sublist.cons₂ a ((List.filter_sublist _).trans ih)

theorem dedup_pairwise (l : List Transaction) :
    (dedupTransactions l).Pairwise (fun x y => sameEvent x y = false) := by
  induction l with
  | nil => simp [dedupTransactions, dedupAux]
  | cons a t ih =>
    rw [dedup_cons, List.pairwise_cons]
    constructor
    · intro b hb
      have := (List.mem_filter.mp hb).2
      have hba : sameEvent b a = false := by
        cases hx : sameEvent b a with
        | false => rfl
        | true => rw [hx] at this; exact absurd this (by decide)
      exact (sameEvent_symm a b).trans hba
    · exact List.Pairwise.filter _ ih

theorem dedup_eq_self_of_pairwise {l : List Transaction}
    (h : l.Pairwise (fun x y => sameEvent x y = false)) : dedupTransactions l = l := by
  induction l with
  | nil => simp [dedupTransactions, dedupAux]
  | cons a t ih =>
    rw [List.pairwise_cons] at h
    rw [dedup_cons, ih h.2, List.filter_eq_self.mpr]
    intro b hb
    have := h.1 b hb
    have hba : sameEvent b a = false := (sameEvent_symm b a).trans this
    simp [hba]

theorem dedup_idem (l : List Transaction) :
    dedupTransactions (dedupTransactions l) = dedupTransactions l :=
  dedup_eq_self_of_pairwise (dedup_pairwise l)

theorem dedup_first_occ (l : List Transaction) :
    ∀ (i : Nat) (hi : i < l.length),
      ∃ j, ∃ hj : j < l.length, j ≤ i ∧
        sameEvent (l.get ⟨j, hj⟩) (l.get ⟨i, hi⟩) = true ∧
        (∀ m (hm : m < l.length), m < j → sameEvent (l.get ⟨m, hm⟩) (l.get ⟨i, hi⟩) = false) ∧
        l.get ⟨j, hj⟩ ∈ dedupTransactions l := by
  induction l with
  | nil => intro i hi; simp at hi
  | cons a t ih =>
    intro i hi
    match i with
    | 0 =>
      refine ⟨0, by simp, Nat.le_refl 0, sameEvent_refl _, ?_, ?_⟩
      · intro m hm hlt; omega
      · rw [dedup_cons]; exact List.mem_cons_self _ _
    | Nat.succ k =>
      have hk : k < t.length := by
        have := Nat.lt_of_succ_lt_succ (by simpa using hi)
        exact this
      cases hax : sameEvent a (t.get ⟨k, hk⟩) with
      | true =>
        refine ⟨0, by simp, Nat.zero_le _, ?_, ?_, ?_⟩
        · show sameEvent a (t.get ⟨k, hk⟩) = true
          exact hax
        · intro m hm hlt; omega
        · rw [dedup_cons]; exact List.mem_cons_self _ _
      | false =>
        obtain ⟨j, hj, hle, hsame, hfirst, hmem⟩ := ih k hk
        refine ⟨j + 1, by simpa using Nat.succ_lt_succ hj, Nat.succ_le_succ hle, ?_, ?_, ?_⟩
        · show sameEvent (t.get ⟨j, hj⟩) (t.get ⟨k, hk⟩) = true
          exact hsame
        · intro m hm hlt
          match m with
          | 0 =>
            show sameEvent a (t.get ⟨k, hk⟩) = false
            exact hax
          | Nat.succ m' =>
            have hm' : m' < t.length := by
              have := Nat.lt_of_succ_lt_succ (by simpa using hm)
              exact this
            show sameEvent (t.get ⟨m', hm'⟩) (t.get ⟨k, hk⟩) = false
            exact hfirst m' hm' (Nat.lt_of_succ_lt_succ hlt)
        · have hja : sameEvent (t.get ⟨j, hj⟩) a = false := by
            cases hx : sameEvent (t.get ⟨j, hj⟩) a with
            | false => rfl
            | true =>
              exfalso
              have hcg := sameEvent_congr hx (t.get ⟨k, hk⟩)
              rw [hsame, hax] at hcg
              exact absurd hcg (by decide)
          show t.get ⟨j, hj⟩ ∈ dedupTransactions (a :: t)
          rw [dedup_cons]
          exact List.mem_cons_of_mem _ (List.mem_filter.mpr ⟨hmem, by simpa using hja⟩)

/-! ## Lemmas about the throwing filter -/

theorem filterE_ok_mem {α : Type} {p : α → Except String Bool} :
    ∀ {l out : List α}, filterE p l = .ok out → ∀ {x : α}, x ∈ out → x ∈ l ∧ p x = .ok true := by
  intro l
  induction l with
  | nil =>
    intro out h x hx
    simp [filterE] at h
    subst h
    simp at hx
  | cons a t ih =>
    intro out h x hx
    unfold filterE at h
    cases hpa : p a with
    | error e => rw [hpa] at h; exact absurd h (by simp)
    | ok b =>
      rw [hpa] at h
      cases hft : filterE p t with
      | error e => rw [hft] at h; exact absurd h (by simp)
      | ok rest =>
        rw [hft] at h
        cases b with
        | true =>
          simp only [if_pos, Except.ok.injEq, if_true] at h
          subst h
          rcases List.mem_cons.mp hx with hxa | hxr
          · subst hxa; exact ⟨List.mem_cons_self _ _, hpa⟩
          · obtain ⟨hmem, hval⟩ := ih hft hxr
            exact ⟨List.mem_cons_of_mem _ hmem, hval⟩
        | false =>
          simp only [Except.ok.injEq, if_false, Bool.false_eq_true, if_neg] at h
          subst h
          obtain ⟨hmem, hval⟩ := ih hft hx
          exact ⟨List.mem_cons_of_mem _ hmem, hval⟩

theorem filterE_error_of_mem {α : Type} {p : α → Except String Bool} :
    ∀ {l : List α} {x : α} {e : String}, x ∈ l → p x = .error e →
      ∃ e', filterE p l = .error e' := by
  intro l
  induction l with
  | nil => intro x e hx; exact absurd hx (by simp)
  | cons a t ih =>
    intro x e hx hpx
    rcases List.mem_cons.mp hx with hxa | hxr
    · subst hxa
      exact ⟨e, by simp [filterE, hpx]⟩
    · cases hpa : p a with
      | error e2 => exact ⟨e2, by simp [filterE, hpa]⟩
      | ok b =>
        obtain ⟨e', he'⟩ := ih hxr hpx
        exact ⟨e', by simp [filterE, hpa, he']⟩

/-! ## Lemmas about the category filters -/

theorem tokenFilter_shared {r : RawRecord} (h : tokenTxFilter r = .ok true) :
    jsLtNum (parseIntJS r.timeStamp) START_TIMESTAMP = false ∧
    r.«to».map toLowerStr = some (toLowerStr GONDI_CONTRACT) ∧
    ∃ v n, r.value = some v ∧ v ≠ "" ∧ jsBigInt? v = some n ∧ 0 < n := by
  unfold tokenTxFilter at h
  split at h
  next h1 => exact absurd h (by simp)
  next h1 =>
    split at h
    next h2 => exact absurd h (by simp)
    next h2 =>
      split at h
      next hv => exact absurd h (by simp)
      next v hv =>
        split at h
        next hv0 => exact absurd h (by simp)
        next hv0 =>
          split at h
          next hbi => exact absurd h (by simp)
          next n hbi =>
            split at h
            next hn => exact absurd h (by simp)
            next hn =>
              exact ⟨Bool.of_not_eq_true h1, not_not.mp h2, v, n, hv, hv0, hbi, by omega⟩

theorem internalFilter_shared {r : RawRecord} (h : internalTxFilter r = .ok true) :
    jsLtNum (parseIntJS r.timeStamp) START_TIMESTAMP = false ∧
    r.«to».map toLowerStr = some (toLowerStr GONDI_CONTRACT) ∧
    ∃ v n, r.value = some v ∧ v ≠ "" ∧ jsBigInt? v = some n ∧ 0 < n := by
  unfold internalTxFilter at h
  split at h
  next h1 => exact absurd h (by simp)
  next h1 =>
    split at h
    next h2 => exact absurd h (by simp)
    next h2 =>
      split at h
      next hv => exact absurd h (by simp)
      next v hv =>
        split at h
        next hv0 => exact absurd h (by simp)
        next hv0 =>
          split at h
          next hbi => exact absurd h (by simp)
          next n hbi =>
            simp only [Except.ok.injEq, decide_eq_true_iff] at h
            exact ⟨Bool.of_not_eq_true h1, not_not.mp h2, v, n, hv, hv0, hbi, h⟩

theorem invariant_of_shared {r : RawRecord} {mk : RawRecord → Transaction}
    (hw : (parseIntJS r.timeStamp).isSome)
    (hts : (mk r).timestamp = (parseIntJS r.timeStamp).map (· * 1000))
    (hto : (mk r).«to» = r.«to») (hval : (mk r).value = r.value)
    (hshared : jsLtNum (parseIntJS r.timeStamp) START_TIMESTAMP = false ∧
      r.«to».map toLowerStr = some (toLowerStr GONDI_CONTRACT) ∧
      ∃ v n, r.value = some v ∧ v ≠ "" ∧ jsBigInt? v = some n ∧ 0 < n) :
    TxInvariant (mk r) := by
  obtain ⟨hdate, htoeq, v, n, hv, _, hbi, hn⟩ := hshared
  obtain ⟨ts, htsv⟩ := Option.isSome_iff_exists.mp hw
  refine ⟨⟨ts * 1000, ?_, ?_⟩, ?_, v, n, ?_, hbi, hn⟩
  · rw [hts, htsv]; rfl
  · rw [htsv] at hdate
    simp only [jsLtNum, decide_eq_false_iff_not] at hdate
    omega
  · obtain ⟨a, ha, hla⟩ := Option.map_eq_some'.mp htoeq
    exact ⟨a, by rw [hto, ha], hla⟩
  · rw [hval, hv]

theorem tokenFilter_invariant {r : RawRecord} (hw : (parseIntJS r.timeStamp).isSome)
    (h : tokenTxFilter r = .ok true) : TxInvariant (processTokenRecord r) :=
  invariant_of_shared hw rfl rfl rfl (tokenFilter_shared h)

theorem internalFilter_invariant {r : RawRecord} (hw : (parseIntJS r.timeStamp).isSome)
    (h : internalTxFilter r = .ok true) : TxInvariant (processInternalRecord r) :=
  invariant_of_shared hw rfl rfl rfl (internalFilter_shared h)

/-! ## Lemmas about the orchestrator -/

theorem fetch_shape (apiKey : Option String) (env : SettledEnv) :
    fetchEthereumTransactions apiKey env = [] ∨
      ∃ tokenTxs internalTxs, tokenPart env = .ok tokenTxs ∧ internalPart env = .ok internalTxs ∧
        fetchEthereumTransactions apiKey env = dedupTransactions (tokenTxs ++ internalTxs) := by
  cases apiKey with
  | none => left; rfl
  | some key =>
    cases htp : tokenPart env with
    | error e =>
      left
      simp [fetchEthereumTransactions, fetchEthereumTransactionsBody, fetchPipeline, htp]
    | ok tokenTxs =>
      cases hip : internalPart env with
      | error e =>
        left
        simp [fetchEthereumTransactions, fetchEthereumTransactionsBody, fetchPipeline, htp, hip]
      | ok internalTxs =>
        right
        exact ⟨tokenTxs, internalTxs, rfl, rfl,
          by simp [fetchEthereumTransactions, fetchEthereumTransactionsBody, fetchPipeline, htp, hip]⟩

theorem tokenRetry_mem {env : SettledEnv} {t : Transaction} (ht : t ∈ tokenRetry env) :
    ∃ raw r, env.tokenRetryResult = .ok raw ∧ r ∈ raw ∧ tokenTxFilter r = .ok true ∧
      t = processTokenRecord r := by
  unfold tokenRetry at ht
  split at ht
  next raw henv =>
    split at ht
    next kept hf =>
      obtain ⟨r, hr, hrt⟩ := List.mem_map.mp ht
      obtain ⟨hrraw, hrtrue⟩ := filterE_ok_mem hf hr
      exact ⟨raw, r, henv, hrraw, hrtrue, hrt.symm⟩
    next e hf => exact absurd ht (by simp)
  next e henv => exact absurd ht (by simp)

theorem mem_fetch_sources {key : String} {env : SettledEnv} {t : Transaction}
    (ht : t ∈ fetchEthereumTransactions (some key) env) :
    (∃ raw r, env.tokenResult = .ok raw ∧ r ∈ raw ∧ tokenTxFilter r = .ok true ∧
        t = processTokenRecord r) ∨
    (∃ raw r, env.tokenRetryResult = .ok raw ∧ r ∈ raw ∧ tokenTxFilter r = .ok true ∧
        t = processTokenRecord r) ∨
    (∃ raw r, env.internalResult = .ok raw ∧ r ∈ raw ∧ internalTxFilter r = .ok true ∧
        t = processInternalRecord r) := by
  rcases fetch_shape (some key) env with hnil | ⟨tokenTxs, internalTxs, htp, hip, heq⟩
  · rw [hnil] at ht; exact absurd ht (by simp)
  · rw [heq] at ht
    have hmem := (dedup_sublist _).mem ht
    rcases List.mem_append.mp hmem with htok | hint
    · -- t came from the token category
      cases henv : env.tokenResult with
      | ok raw =>
        have htp2 : Except.map (List.map processTokenRecord) (filterE tokenTxFilter raw) =
            .ok tokenTxs := by
          rw [← htp]; unfold tokenPart; rw [henv]
        cases hf : filterE tokenTxFilter raw with
        | error e => rw [hf] at htp2; exact absurd htp2 (by simp [Except.map])
        | ok kept =>
          rw [hf] at htp2
          simp only [Except.map, Except.ok.injEq] at htp2
          rw [← htp2] at htok
          obtain ⟨r, hr, hrt⟩ := List.mem_map.mp htok
          obtain ⟨hrraw, hrtrue⟩ := filterE_ok_mem hf hr
          exact Or.inl ⟨raw, r, rfl, hrraw, hrtrue, hrt.symm⟩
      | error e =>
        have htp2 : tokenRetry env = tokenTxs := by
          have h2 : tokenPart env = .ok (tokenRetry env) := by unfold tokenPart; rw [henv]
          rw [htp] at h2
          exact (Except.ok.injEq _ _ ▸ h2).symm
        rw [← htp2] at htok
        exact Or.inr (Or.inl (tokenRetry_mem htok))
    · -- t came from the internal category
      cases henv : env.internalResult with
      | ok raw =>
        have hip2 : Except.map (List.map processInternalRecord) (filterE internalTxFilter raw) =
            .ok internalTxs := by
          rw [← hip]; unfold internalPart; rw [henv]
        cases hf : filterE internalTxFilter raw with
        | error e => rw [hf] at hip2; exact absurd hip2 (by simp [Except.map])
        | ok kept =>
          rw [hf] at hip2
          simp only [Except.map, Except.ok.injEq] at hip2
          rw [← hip2] at hint
          obtain ⟨r, hr, hrt⟩ := List.mem_map.mp hint
          obtain ⟨hrraw, hrtrue⟩ := filterE_ok_mem hf hr
          exact Or.inr (Or.inr ⟨raw, r, rfl, hrraw, hrtrue, hrt.symm⟩)
      | error e =>
        have hip2 : internalPart env = .ok [] := by unfold internalPart; rw [henv]
        rw [hip] at hip2
        injection hip2 with h
        rw [h] at hint
        exact absurd hint (by simp)

/-! ## Lemmas about the resilient fetcher -/

theorem getCachedData_none_mono {cache : Cache} {now now2 : Nat} {url : String}
    (h : getCachedData cache now url = none) (hle : now ≤ now2) :
    getCachedData cache now2 url = none := by
  cases hl : cache.lookup url with
  | none => simp [getCachedData, hl]
  | some e =>
    simp only [getCachedData, hl] at h ⊢
    split at h
    next hc => exact absurd h (by simp)
    next hc => rw [if_neg (by omega)]

theorem fetchAttempts_attempts_pos (env : Nat → AttemptOutcome) (url : String) (now i : Nat)
    (fuel : Nat) (cache : Cache) (h : 1 ≤ fuel) :
    1 ≤ (fetchAttempts env url now i fuel cache).attemptsMade := by
  match fuel, h with
  | f + 1, _ =>
    cases hstep : stepOfOutcome (env i) with
    | done p c => simp [fetchAttempts, hstep]
    | failed m =>
      by_cases hf : f = 0
      · simp [fetchAttempts, hstep, hf]
      · simp [fetchAttempts, hstep, hf]

theorem fetchAttempts_noResults (env : Nat → AttemptOutcome) (url : String) (now : Nat)
    (cache : Cache) (r0 : Nat) (res : Option (List RawRecord))
    (h0 : env 0 = .success ⟨"0", "No transactions found", res⟩) :
    fetchAttempts env url now 0 (r0 + 1) cache = ⟨.ok [], cache, 1, []⟩ := by
  have s0 : stepOfOutcome (env 0) = .done [] false := by rw [h0]; rfl
  unfold fetchAttempts
  rw [s0]
  rfl

theorem fetchWithRetry_noResults (env : Nat → AttemptOutcome) (url : String) (now : Nat)
    (cache : Cache) (r0 : Nat) (res : Option (List RawRecord))
    (hmiss : getCachedData cache now url = none)
    (h0 : env 0 = .success ⟨"0", "No transactions found", res⟩) :
    fetchWithRetry env url now cache (r0 + 1) = ⟨.ok [], cache, 1, []⟩ := by
  unfold fetchWithRetry
  rw [hmiss]
  exact fetchAttempts_noResults env url now cache r0 res h0

theorem fetchWithRetry_success_caches (env : Nat → AttemptOutcome) (url : String) (now : Nat)
    (cache : Cache) (r0 : Nat) (resp : ApiEnvelope)
    (hmiss : getCachedData cache now url = none)
    (h0 : env 0 = .success resp) (hstat : resp.status ≠ "0") :
    fetchWithRetry env url now cache (r0 + 1) =
      ⟨.ok (resp.result.getD []), setCachedData url (resp.result.getD []) now cache, 1, []⟩ := by
  have s0 : stepOfOutcome (env 0) = .done (resp.result.getD []) true := by
    rw [h0]
    simp only [stepOfOutcome]
    rw [if_neg hstat]
  unfold fetchWithRetry
  rw [hmiss]
  unfold fetchAttempts
  rw [s0]
  rfl

theorem fetchWithRetry_three_failures (env : Nat → AttemptOutcome) (url : String) (now : Nat)
    (cache : Cache) (msg : String)
    (hmiss : getCachedData cache now url = none)
    (s0 : stepOfOutcome (env 0) = .failed msg) (s1 : stepOfOutcome (env 1) = .failed msg)
    (s2 : stepOfOutcome (env 2) = .failed msg) :
    fetchWithRetry env url now cache 3 = ⟨.error msg, cache, 3, [1000, 2000]⟩ := by
  have e0 : fetchAttempts env url now 0 3 cache = ⟨.error msg, cache, 3, [1000, 2000]⟩ := by
    simp [fetchAttempts, s0, s1, s2, backoffDelay]
  unfold fetchWithRetry
  rw [hmiss]
  exact e0

/-! ## Claims -/

/-- C1, counterexample: the claim says that with the credential unset
`fetchEthereumTransactions` raises past the ingestion boundary rather than
returning a normal (empty) result.  On the code the missing-credential
throw at line 110 is inside the `try` whose `catch` (lines 286-289)
returns `[]`, so at this concrete input the call returns the normal empty
result — while the body did raise the descriptive error internally. -/
theorem C1_counterexample :
    fetchEthereumTransactions none ⟨.ok [], .ok [], .ok []⟩ = [] ∧
    (fetchEthereumTransactionsBody none ⟨.ok [], .ok [], .ok []⟩).1 =
      .error "ETHERSCAN_API_KEY is required but not set" :=
  ⟨rfl, rfl⟩

/-- C1, amended: if the credential is absent, `fetchEthereumTransactions`
fails fast internally with the descriptive error
`ETHERSCAN_API_KEY is required but not set` before issuing any upstream
request, but its own outer catch converts that error into the normal
empty-list result, so no exception propagates past the ingestion
boundary. -/
theorem C1_missing_credential (env : SettledEnv) :
    (fetchEthereumTransactionsBody none env).1 =
      .error "ETHERSCAN_API_KEY is required but not set" ∧
    fetchEthereumTransactions none env = [] ∧
    issuedRequests none env = [] :=
  ⟨rfl, rfl, rfl⟩

/-- C2: for raw upstream record lists whose `timeStamp` fields are numeric
(as Etherscan delivers them), every `Transaction` returned by
`fetchEthereumTransactions` satisfies the three shared filter invariants:
timestamp at or after the 2025-10-22T00:00:00Z cutoff, recipient equal to
the tracked contract up to ASCII case, and a strictly positive integer
value. -/
theorem C2_filter_invariants (apiKey : Option String) (env : SettledEnv)
    (hTok : ∀ raw, env.tokenResult = .ok raw → ∀ r ∈ raw, (parseIntJS r.timeStamp).isSome)
    (hRetry : ∀ raw, env.tokenRetryResult = .ok raw → ∀ r ∈ raw, (parseIntJS r.timeStamp).isSome)
    (hInt : ∀ raw, env.internalResult = .ok raw → ∀ r ∈ raw, (parseIntJS r.timeStamp).isSome) :
    ∀ t ∈ fetchEthereumTransactions apiKey env, TxInvariant t := by
  intro t ht
  cases apiKey with
  | none =>
    have hnil : fetchEthereumTransactions none env = [] := rfl
    rw [hnil] at ht
    exact absurd ht (by simp)
  | some key =>
    rcases mem_fetch_sources ht with ⟨raw, r, henv, hr, hft, hteq⟩ | ⟨raw, r, henv, hr, hft, hteq⟩ |
      ⟨raw, r, henv, hr, hft, hteq⟩
    · exact hteq ▸ tokenFilter_invariant (hTok raw henv r hr) hft
    · exact hteq ▸ tokenFilter_invariant (hRetry raw henv r hr) hft
    · exact hteq ▸ internalFilter_invariant (hInt raw henv r hr) hft

/-- C2 witness: the invariants hold of the transaction normalized from a
concrete well-formed USDC token-transfer record. -/
theorem C2_witness :
    TxInvariant (processTokenRecord ⟨some "0xabc", "1761091300", some "1000000", some "0xfeed",
      some GONDI_CONTRACT, some USDC_CONTRACT, some "USDC", some "6", some "100"⟩) :=
  C2_filter_invariants (some "k")
    ⟨.ok [⟨some "0xabc", "1761091300", some "1000000", some "0xfeed",
        some GONDI_CONTRACT, some USDC_CONTRACT, some "USDC", some "6", some "100"⟩],
      .ok [], .ok []⟩
    (by intro raw h r hr; injection h with h2; subst h2; simp at hr; subst hr; decide)
    (by intro raw h r hr; injection h with h2; subst h2; simp at hr)
    (by intro raw h r hr; injection h with h2; subst h2; simp at hr)
    _ (by decide)

/-- C3: the list returned by `fetchEthereumTransactions` never contains two
transactions sharing both `hash` and `value`; deduplication returns a
sublist (preserving the relative order of survivors), is idempotent, and
for every input position the first same-`hash`-and-`value` occurrence (and
only it, by the pairwise part) survives. -/
theorem C3_deduplication :
    (∀ (apiKey : Option String) (env : SettledEnv),
      (fetchEthereumTransactions apiKey env).Pairwise (fun a b => sameEvent a b = false)) ∧
    (∀ l : List Transaction,
      (dedupTransactions l).Sublist l ∧
      dedupTransactions (dedupTransactions l) = dedupTransactions l ∧
      (∀ (i : Nat) (hi : i < l.length), ∃ j, ∃ hj : j < l.length, j ≤ i ∧
        sameEvent (l.get ⟨j, hj⟩) (l.get ⟨i, hi⟩) = true ∧
        (∀ m (hm : m < l.length), m < j → sameEvent (l.get ⟨m, hm⟩) (l.get ⟨i, hi⟩) = false) ∧
        l.get ⟨j, hj⟩ ∈ dedupTransactions l)) := by
  constructor
  · intro apiKey env
    rcases fetch_shape apiKey env with h | ⟨tp, ip, _, _, h⟩ <;> rw [h]
    · exact List.Pairwise.nil
    · exact dedup_pairwise _
  · intro l
    exact ⟨dedup_sublist l, dedup_idem l, dedup_first_occ l⟩

/-- C3 witness: two records sharing hash `0xabc` and value `500` across the
two categories leave no duplicate pair in the returned list, and on a
concrete two-element duplicate list the first occurrence survives. -/
theorem C3_witness :
    (fetchEthereumTransactions (some "k")
      ⟨.ok [⟨some "0xabc", "1761091300", some "500", some "0xfeed",
          some GONDI_CONTRACT, some USDC_CONTRACT, some "USDC", some "6", some "100"⟩],
        .ok [⟨some "0xabc", "1761091300", some "500", some "0xfeed",
          some GONDI_CONTRACT, none, none, none, some "101"⟩],
        .ok []⟩).Pairwise (fun a b => sameEvent a b = false) ∧
    (dedupTransactions
        [⟨some "0xabc", some 1, some "500", some "USDC", some 6, some "a", some "b", "ethereum",
            some 1⟩,
          ⟨some "0xabc", some 2, some "500", some "ETH", some 18, some "c", some "d", "ethereum",
            some 2⟩]).Sublist
      [⟨some "0xabc", some 1, some "500", some "USDC", some 6, some "a", some "b", "ethereum",
          some 1⟩,
        ⟨some "0xabc", some 2, some "500", some "ETH", some 18, some "c", some "d", "ethereum",
          some 2⟩] ∧
    (∃ j, ∃ hj : j <
        ([⟨some "0xabc", some 1, some "500", some "USDC", some 6, some "a", some "b", "ethereum",
            some 1⟩,
          ⟨some "0xabc", some 2, some "500", some "ETH", some 18, some "c", some "d", "ethereum",
            some 2⟩] : List Transaction).length, j ≤ 1 ∧
      sameEvent
        (([⟨some "0xabc", some 1, some "500", some "USDC", some 6, some "a", some "b", "ethereum",
            some 1⟩,
          ⟨some "0xabc", some 2, some "500", some "ETH", some 18, some "c", some "d", "ethereum",
            some 2⟩] : List Transaction).get ⟨j, hj⟩)
        (([⟨some "0xabc", some 1, some "500", some "USDC", some 6, some "a", some "b", "ethereum",
            some 1⟩,
          ⟨some "0xabc", some 2, some "500", some "ETH", some 18, some "c", some "d", "ethereum",
            some 2⟩] : List Transaction).get ⟨1, by decide⟩) = true ∧
      (∀ m (hm : m <
          ([⟨some "0xabc", some 1, some "500", some "USDC", some 6, some "a", some "b", "ethereum",
              some 1⟩,
            ⟨some "0xabc", some 2, some "500", some "ETH", some 18, some "c", some "d", "ethereum",
              some 2⟩] : List Transaction).length), m < j →
        sameEvent
          (([⟨some "0xabc", some 1, some "500", some "USDC", some 6, some "a", some "b", "ethereum",
              some 1⟩,
            ⟨some "0xabc", some 2, some "500", some "ETH", some 18, some "c", some "d", "ethereum",
              some 2⟩] : List Transaction).get ⟨m, hm⟩)
          (([⟨some "0xabc", some 1, some "500", some "USDC", some 6, some "a", some "b", "ethereum",
              some 1⟩,
            ⟨some "0xabc", some 2, some "500", some "ETH", some 18, some "c", some "d", "ethereum",
              some 2⟩] : List Transaction).get ⟨1, by decide⟩) = false) ∧
      ([⟨some "0xabc", some 1, some "500", some "USDC", some 6, some "a", some "b", "ethereum",
          some 1⟩,
        ⟨some "0xabc", some 2, some "500", some "ETH", some 18, some "c", some "d", "ethereum",
          some 2⟩] : List Transaction).get ⟨j, hj⟩ ∈ dedupTransactions
        [⟨some "0xabc", some 1, some "500", some "USDC", some 6, some "a", some "b", "ethereum",
            some 1⟩,
          ⟨some "0xabc", some 2, some "500", some "ETH", some 18, some "c", some "d", "ethereum",
            some 2⟩]) :=
  ⟨C3_deduplication.1 (some "k") _, (C3_deduplication.2 _).1,
    (C3_deduplication.2 _).2.2 1 (by decide)⟩

/-- C4: for every non-negative integer-valued string and every decimal
exponent in the range where `10 ** decimals` is an exact double (which
includes the default 18), `parseTransactionValue` equals
`value / 10 ^ decimals` exactly in the rational model — the quotient and
remainder of the arbitrary-precision division recombine to the true
quotient, including for values exceeding `2 ^ 53`. -/
theorem C4_parse_value_exact (s : String) (d : Nat) (n : Int)
    (hd : d ≤ 22) (hn : 0 ≤ n) (hbi : jsBigInt? s = some n) :
    parseTransactionValue s d = (n : ℚ) / ((10 : ℚ) ^ d) := by
  unfold parseTransactionValue
  rw [hbi]
  show ((n.tdiv ((10 : Int) ^ d) : Int) : ℚ) + ((n.tmod ((10 : Int) ^ d) : Int) : ℚ) /
      (((10 : Int) ^ d : Int) : ℚ) = (n : ℚ) / ((10 : ℚ) ^ d)
  have key : ((10 : Int) ^ d) * (n.tdiv ((10 : Int) ^ d)) + n.tmod ((10 : Int) ^ d) = n :=
    Int.tdiv_add_tmod n _
  have h0 : ((10 : ℚ) ^ d) ≠ 0 := by positivity
  have hc := congrArg (fun z : Int => (z : ℚ)) key
  push_cast at hc ⊢
  field_simp
  linarith

/-- C4 witness: a 27-digit value (far above `2 ^ 53`) with the default 18
decimals parses to the exact quotient. -/
theorem C4_witness :
    parseTransactionValue "123456789012345678901234567" 18 =
      ((123456789012345678901234567 : Int) : ℚ) / ((10 : ℚ) ^ 18) :=
  C4_parse_value_exact "123456789012345678901234567" 18 123456789012345678901234567
    (by norm_num) (by norm_num) (by decide)

/-- C5: `fetchEthereumTransactions` never lets an error escape — its result
is the empty list or the successful pipeline value; when every category
fetch (including the token retry) fails it returns `[]`; and a failure of
either category does not stop the other category's transactions from
appearing in the result. -/
theorem C5_never_throws :
    (∀ (apiKey : Option String) (env : SettledEnv),
      fetchEthereumTransactions apiKey env = [] ∨
      (fetchEthereumTransactionsBody apiKey env).1 =
        .ok (fetchEthereumTransactions apiKey env)) ∧
    (∀ (apiKey : Option String) (env : SettledEnv) (e1 e2 e3 : String),
      env.tokenResult = .error e1 → env.tokenRetryResult = .error e2 →
      env.internalResult = .error e3 → fetchEthereumTransactions apiKey env = []) ∧
    (∀ (key : String) (env : SettledEnv) (e1 e2 : String) (raw kept : List RawRecord),
      env.tokenResult = .error e1 → env.tokenRetryResult = .error e2 →
      env.internalResult = .ok raw → filterE internalTxFilter raw = .ok kept →
      fetchEthereumTransactions (some key) env =
        dedupTransactions (List.map processInternalRecord kept)) ∧
    (∀ (key : String) (env : SettledEnv) (e : String) (raw kept : List RawRecord),
      env.internalResult = .error e → env.tokenResult = .ok raw →
      filterE tokenTxFilter raw = .ok kept →
      fetchEthereumTransactions (some key) env =
        dedupTransactions (List.map processTokenRecord kept)) := by
  refine ⟨?_, ?_, ?_, ?_⟩
  · intro apiKey env
    unfold fetchEthereumTransactions
    cases hb : (fetchEthereumTransactionsBody apiKey env).1 with
    | error e => left; rfl
    | ok txs => right; rfl
  · intro apiKey env e1 e2 e3 h1 h2 h3
    cases apiKey with
    | none => rfl
    | some key =>
      simp [fetchEthereumTransactions, fetchEthereumTransactionsBody, fetchPipeline,
        tokenPart, tokenRetry, internalPart, h1, h2, h3, dedupTransactions, dedupAux]
  · intro key env e1 e2 raw kept h1 h2 h3 hf
    simp [fetchEthereumTransactions, fetchEthereumTransactionsBody, fetchPipeline,
      tokenPart, tokenRetry, internalPart, h1, h2, h3, hf, Except.map]
  · intro key env e raw kept h1 h2 hf
    simp [fetchEthereumTransactions, fetchEthereumTransactionsBody, fetchPipeline,
      tokenPart, internalPart, h1, h2, hf, Except.map]

/-- C5 witness: total failure returns the empty list, and with both token
fetches failed the internal category still contributes its transaction. -/
theorem C5_witness :
    fetchEthereumTransactions (some "k") ⟨.error "HTTP 500: boom", .error "HTTP 429: limit",
      .error "HTTP 502: bad"⟩ = [] ∧
    fetchEthereumTransactions (some "k") ⟨.error "HTTP 500: boom",
      .ok [⟨some "0xdef", "1761091300", some "500", some "0xfeed",
        some GONDI_CONTRACT, none, none, none, some "101"⟩],
      .error "HTTP 429: limit"⟩ =
      dedupTransactions (List.map processInternalRecord
        [⟨some "0xdef", "1761091300", some "500", some "0xfeed",
          some GONDI_CONTRACT, none, none, none, some "101"⟩]) :=
  ⟨C5_never_throws.2.1 (some "k") _ "HTTP 500: boom" "HTTP 502: bad" "HTTP 429: limit"
      rfl rfl rfl,
    C5_never_throws.2.2.1 "k" _ "HTTP 500: boom" "HTTP 429: limit" _ _ rfl rfl rfl rfl⟩

/-- C6: on a query whose every attempt fails (HTTP 429), `fetchWithRetry`
with the default budget of 3 makes exactly 3 attempts, sleeps
`min(5000, 1000·2^i)` after each of the first two failures (1000 ms then
2000 ms, so at least 3000 ms of cumulative backoff precedes the final
failure), and propagates the error of the final attempt instead of
retrying further. -/
theorem C6_retry_exhaustion (env : Nat → AttemptOutcome) (url : String) (now : Nat)
    (cache : Cache) (stText : String)
    (hmiss : getCachedData cache now url = none)
    (h0 : env 0 = .httpError 429 stText) (h1 : env 1 = .httpError 429 stText)
    (h2 : env 2 = .httpError 429 stText) :
    (fetchWithRetry env url now cache 3).attemptsMade = 3 ∧
    (fetchWithRetry env url now cache 3).delays = [backoffDelay 0, backoffDelay 1] ∧
    (fetchWithRetry env url now cache 3).delays = [1000, 2000] ∧
    1000 + 2000 ≤ (fetchWithRetry env url now cache 3).delays.sum ∧
    (fetchWithRetry env url now cache 3).result = .error ("HTTP 429: " ++ stText) := by
  have hs : ∀ i, env i = .httpError 429 stText →
      stepOfOutcome (env i) = .failed ("HTTP 429: " ++ stText) := by
    intro i h
    rw [h]
    rfl
  have key := fetchWithRetry_three_failures env url now cache ("HTTP 429: " ++ stText) hmiss
    (hs 0 h0) (hs 1 h1) (hs 2 h2)
  rw [key]
  exact ⟨rfl, rfl, rfl, by norm_num, rfl⟩

/-- C6 witness: a concrete always-429 attempt environment exhausts the
budget with delays 1000 and 2000 and a propagated error. -/
theorem C6_witness :
    (fetchWithRetry (fun _ => .httpError 429 "Too Many Requests") "u" 0 [] 3).attemptsMade = 3 ∧
    (fetchWithRetry (fun _ => .httpError 429 "Too Many Requests") "u" 0 [] 3).delays =
      [backoffDelay 0, backoffDelay 1] ∧
    (fetchWithRetry (fun _ => .httpError 429 "Too Many Requests") "u" 0 [] 3).delays =
      [1000, 2000] ∧
    1000 + 2000 ≤ (fetchWithRetry (fun _ => .httpError 429 "Too Many Requests") "u" 0 [] 3).delays.sum ∧
    (fetchWithRetry (fun _ => .httpError 429 "Too Many Requests") "u" 0 [] 3).result =
      .error ("HTTP 429: " ++ "Too Many Requests") :=
  C6_retry_exhaustion (fun _ => .httpError 429 "Too Many Requests") "u" 0 [] "Too Many Requests"
    rfl rfl rfl rfl

/-- C7: a response envelope with status flag `"0"` and message
`No transactions found` makes `fetchWithRetry` return the empty list on
the first attempt — no retry is consumed, no error is propagated, and the
cache is left unchanged. -/
theorem C7_no_results (env : Nat → AttemptOutcome) (url : String) (now : Nat) (cache : Cache)
    (r0 : Nat) (res : Option (List RawRecord))
    (hmiss : getCachedData cache now url = none)
    (h0 : env 0 = .success ⟨"0", "No transactions found", res⟩) :
    fetchWithRetry env url now cache (r0 + 1) = ⟨.ok [], cache, 1, []⟩ :=
  fetchWithRetry_noResults env url now cache r0 res hmiss h0

/-- C7 witness: the concrete no-results envelope yields the empty list
after one attempt with no delay and no error, at the default budget 3. -/
theorem C7_witness :
    fetchWithRetry (fun _ => .success ⟨"0", "No transactions found", none⟩) "u" 0 [] 3 =
      ⟨.ok [], [], 1, []⟩ :=
  C7_no_results (fun _ => .success ⟨"0", "No transactions found", none⟩) "u" 0 [] 2 none rfl rfl

/-- C8: a token-transfer record that passes the three shared filters is
retained if and only if its `contractAddress` case-insensitively equals
one of exactly the two allow-listed asset contracts (USDC or WETH). -/
theorem C8_token_allowlist (tx : RawRecord) (ts : Int) (v : String) (n : Int)
    (hts : parseIntJS tx.timeStamp = some ts) (hge : START_TIMESTAMP ≤ ts)
    (hto : tx.«to».map toLowerStr = some (toLowerStr GONDI_CONTRACT))
    (hv : tx.value = some v) (hv0 : v ≠ "") (hbi : jsBigInt? v = some n) (hn : 0 < n) :
    (tokenTxFilter tx = .ok true ↔
      ∃ c, tx.contractAddress = some c ∧
        (toLowerStr c = toLowerStr USDC_CONTRACT ∨ toLowerStr c = toLowerStr WETH_CONTRACT)) := by
  have h1 : jsLtNum (parseIntJS tx.timeStamp) START_TIMESTAMP = false := by
    rw [hts]
    simp only [jsLtNum, decide_eq_false_iff_not]
    omega
  have hn' : ¬(n ≤ 0) := by omega
  have heq : tokenTxFilter tx =
      .ok (decide (tx.contractAddress.map toLowerStr = some (toLowerStr USDC_CONTRACT)) ||
           decide (tx.contractAddress.map toLowerStr = some (toLowerStr WETH_CONTRACT))) := by
    unfold tokenTxFilter
    simp [h1, hv, hbi, hto, hv0, hn']
  rw [heq]
  simp only [Except.ok.injEq, Bool.or_eq_true, decide_eq_true_eq]
  constructor
  · rintro (hA | hB)
    · obtain ⟨c, hc, hlc⟩ := Option.map_eq_some'.mp hA
      exact ⟨c, hc, Or.inl hlc⟩
    · obtain ⟨c, hc, hlc⟩ := Option.map_eq_some'.mp hB
      exact ⟨c, hc, Or.inr hlc⟩
  · rintro ⟨c, hc, hlc | hlc⟩
    · exact Or.inl (by rw [hc]; simpa using hlc)
    · exact Or.inr (by rw [hc]; simpa using hlc)

/-- C8 witness: a concrete record passing the shared filters is retained
exactly because its asset contract is the USDC allow-list entry. -/
theorem C8_witness :
    tokenTxFilter ⟨some "0x8c8", "1761091300", some "2000000", some "0xfeed",
        some GONDI_CONTRACT, some USDC_CONTRACT, some "USDC", some "6", some "100"⟩ = .ok true ↔
      ∃ c, (⟨some "0x8c8", "1761091300", some "2000000", some "0xfeed",
          some GONDI_CONTRACT, some USDC_CONTRACT, some "USDC", some "6",
          some "100"⟩ : RawRecord).contractAddress = some c ∧
        (toLowerStr c = toLowerStr USDC_CONTRACT ∨ toLowerStr c = toLowerStr WETH_CONTRACT) :=
  C8_token_allowlist _ 1761091300 "2000000" 2000000 (by decide) (by decide) (by decide) rfl
    (by decide) (by decide) (by decide)

/-! Helper steps for C9. -/

theorem fetch_nil_of_pipeline_error {key : String} {env : SettledEnv} {e : String}
    (h : fetchPipeline env = .error e) : fetchEthereumTransactions (some key) env = [] := by
  unfold fetchEthereumTransactions
  rw [show (fetchEthereumTransactionsBody (some key) env).1 = fetchPipeline env from rfl, h]

theorem pipeline_error_of_tokenPart {env : SettledEnv} {e : String}
    (h : tokenPart env = .error e) : fetchPipeline env = .error e := by
  unfold fetchPipeline
  rw [h]

theorem pipeline_error_of_internalPart {env : SettledEnv} {tp : List Transaction} {e : String}
    (ht : tokenPart env = .ok tp) (h : internalPart env = .error e) :
    fetchPipeline env = .error e := by
  unfold fetchPipeline
  rw [ht, h]

/-- C9 (implicit claim): one raw record in a successfully fetched category
whose `value` reaches the `BigInt` conversion but is not a valid integer
string makes the conversion throw, the throw escapes the filter callback
to the orchestrator's outer catch, and `fetchEthereumTransactions` returns
the empty list — every category's transactions are discarded. -/
theorem C9_malformed_value_empties :
    (∀ (key : String) (env : SettledEnv) (raw : List RawRecord) (tx : RawRecord) (ts : Int)
       (v : String),
      env.tokenResult = .ok raw → tx ∈ raw →
      parseIntJS tx.timeStamp = some ts → START_TIMESTAMP ≤ ts →
      tx.«to».map toLowerStr = some (toLowerStr GONDI_CONTRACT) →
      tx.value = some v → v ≠ "" → jsBigInt? v = none →
      fetchEthereumTransactions (some key) env = []) ∧
    (∀ (key : String) (env : SettledEnv) (raw : List RawRecord) (tx : RawRecord) (ts : Int)
       (v : String),
      env.internalResult = .ok raw → tx ∈ raw →
      parseIntJS tx.timeStamp = some ts → START_TIMESTAMP ≤ ts →
      tx.«to».map toLowerStr = some (toLowerStr GONDI_CONTRACT) →
      tx.value = some v → v ≠ "" → jsBigInt? v = none →
      fetchEthereumTransactions (some key) env = []) := by
  constructor
  · intro key env raw tx ts v henv htx hts hge hto hv hv0 hbi
    have h1 : jsLtNum (parseIntJS tx.timeStamp) START_TIMESTAMP = false := by
      rw [hts]
      simp only [jsLtNum, decide_eq_false_iff_not]
      omega
    have herr : tokenTxFilter tx = .error ("Cannot convert " ++ v ++ " to a BigInt") := by
      unfold tokenTxFilter
      simp [h1, hto, hv, hv0, hbi]
    obtain ⟨e', hfe⟩ := filterE_error_of_mem htx herr
    have htp : tokenPart env = .error e' := by
      unfold tokenPart
      rw [henv]
      show Except.map (List.map processTokenRecord) (filterE tokenTxFilter raw) = .error e'
      rw [hfe]
      rfl
    exact fetch_nil_of_pipeline_error (pipeline_error_of_tokenPart htp)
  · intro key env raw tx ts v henv htx hts hge hto hv hv0 hbi
    have h1 : jsLtNum (parseIntJS tx.timeStamp) START_TIMESTAMP = false := by
      rw [hts]
      simp only [jsLtNum, decide_eq_false_iff_not]
      omega
    have herr : internalTxFilter tx = .error ("Cannot convert " ++ v ++ " to a BigInt") := by
      unfold internalTxFilter
      simp [h1, hto, hv, hv0, hbi]
    obtain ⟨e', hfe⟩ := filterE_error_of_mem htx herr
    have hip : internalPart env = .error e' := by
      unfold internalPart
      rw [henv]
      show Except.map (List.map processInternalRecord) (filterE internalTxFilter raw) = .error e'
      rw [hfe]
      rfl
    cases htp : tokenPart env with
    | error e2 => exact fetch_nil_of_pipeline_error (pipeline_error_of_tokenPart htp)
    | ok tp => exact fetch_nil_of_pipeline_error (pipeline_error_of_internalPart htp hip)

/-- C9 witness: a single malformed-value record (`"12x"`) in an otherwise
successfully fetched token category empties the whole result. -/
theorem C9_witness :
    fetchEthereumTransactions (some "k")
      ⟨.ok [⟨some "0xbad", "1761091300", some "12x", some "0xfeed",
          some GONDI_CONTRACT, some USDC_CONTRACT, some "USDC", some "6", some "100"⟩],
        .ok [], .ok []⟩ = [] :=
  C9_malformed_value_empties.1 "k" _ _
    ⟨some "0xbad", "1761091300", some "12x", some "0xfeed",
      some GONDI_CONTRACT, some USDC_CONTRACT, some "USDC", some "6", some "100"⟩
    1761091300 "12x" rfl (by decide) (by decide) (by decide) (by decide) rfl (by decide)
    (by decide)

/-- C10 (implicit claim): the no-transactions-found path writes nothing to
the fetch cache — only envelopes whose status flag is not `"0"` are
cached — so a later call with the same URL at any later instant inside the
freshness window consults the network again (at least one attempt) instead
of hitting the cache. -/
theorem C10_no_results_not_cached :
    (∀ (env : Nat → AttemptOutcome) (url : String) (now : Nat) (cache : Cache) (r0 : Nat)
       (res : Option (List RawRecord)),
      getCachedData cache now url = none →
      env 0 = .success ⟨"0", "No transactions found", res⟩ →
      (fetchWithRetry env url now cache (r0 + 1)).cache = cache) ∧
    (∀ (env env2 : Nat → AttemptOutcome) (url : String) (now now2 : Nat) (cache : Cache)
       (r0 r2 : Nat) (res : Option (List RawRecord)),
      getCachedData cache now url = none → now ≤ now2 →
      env 0 = .success ⟨"0", "No transactions found", res⟩ →
      1 ≤ (fetchWithRetry env2 url now2 ((fetchWithRetry env url now cache (r0 + 1)).cache)
            (r2 + 1)).attemptsMade) ∧
    (∀ (env : Nat → AttemptOutcome) (url : String) (now : Nat) (cache : Cache) (r0 : Nat)
       (resp : ApiEnvelope),
      getCachedData cache now url = none → env 0 = .success resp → resp.status ≠ "0" →
      (fetchWithRetry env url now cache (r0 + 1)).cache =
        setCachedData url (resp.result.getD []) now cache) := by
  refine ⟨?_, ?_, ?_⟩
  · intro env url now cache r0 res hmiss h0
    rw [fetchWithRetry_noResults env url now cache r0 res hmiss h0]
  · intro env env2 url now now2 cache r0 r2 res hmiss hle h0
    rw [fetchWithRetry_noResults env url now cache r0 res hmiss h0]
    show 1 ≤ (fetchWithRetry env2 url now2 cache (r2 + 1)).attemptsMade
    unfold fetchWithRetry
    rw [getCachedData_none_mono hmiss hle]
    exact fetchAttempts_attempts_pos env2 url now2 0 (r2 + 1) cache (by omega)
  · intro env url now cache r0 resp hmiss h0 hstat
    rw [fetchWithRetry_success_caches env url now cache r0 resp hmiss h0 hstat]

/-- C10 witness: at concrete inputs the no-results response leaves the
cache empty, a repeat call performs an attempt, and a status-`"1"`
response is cached. -/
theorem C10_witness :
    (fetchWithRetry (fun _ => .success ⟨"0", "No transactions found", none⟩) "u" 0 [] 3).cache =
      [] ∧
    1 ≤ (fetchWithRetry (fun _ => .httpError 500 "boom") "u" 5
          ((fetchWithRetry (fun _ => .success ⟨"0", "No transactions found", none⟩) "u" 0 []
            3).cache) 3).attemptsMade ∧
    (fetchWithRetry (fun _ => .success ⟨"1", "OK", some []⟩) "u" 7 [] 3).cache =
      setCachedData "u" ((some ([] : List RawRecord)).getD []) 7 [] :=
  ⟨C10_no_results_not_cached.1 _ "u" 0 [] 2 none rfl rfl,
    C10_no_results_not_cached.2.1 _ (fun _ => .httpError 500 "boom") "u" 0 5 [] 2 2 none rfl
      (by omega) rfl,
    C10_no_results_not_cached.2.2 _ "u" 7 [] 2 ⟨"1", "OK", some []⟩ rfl rfl (by decide)⟩
